import Mathlib

/-!
Shallow embedding of the ECG preprocessing / feature-extraction pipeline
(src/src/preprocessing/__init__.py and src/src/feature_extraction/__init__.py).

Signals are arrays of double-precision values, modelled over ℝ with exact
arithmetic.  A numpy array of shape (samples, channels) is represented
channel-major as a list of channels, each channel a list of samples; a 1-D
array is a separate constructor, mirroring the reshape(-1, 1) performed by
every array-consuming function.  Python exceptions are modelled by an error
type carried in Except.  numpy std of an empty slice is NaN in the source;
it is modelled as Option ℝ with none for the empty case, so that the
comparison NaN == 0 is false exactly as in numpy.  External library calls
(scipy butter and filtfilt) are parameters of the functions that invoke
them, constrained only where the source constrains them.
-/

open Classical

/-- Python exception values observable from the functions under study. -/
inductive PyErr where
  | valueError (msg : String)
  | typeError (msg : String)
  | indexError (msg : String)
  | runtimeError (msg : String)
deriving DecidableEq

/-- Python str(e): the message carried by the exception. -/
def pyMessage : PyErr → String
  | .valueError m => m
  | .typeError m => m
  | .indexError m => m
  | .runtimeError m => m

/-- A numpy float array of at most two dimensions; 2-D arrays are stored
channel-major (the list of columns of the (samples, channels) layout). -/
inductive NpArray where
  | one (data : List ℝ)
  | two (channels : List (List ℝ))

/-- The reshape(-1, 1) step shared by the preprocessing functions: a 1-D
array becomes a single channel, a 2-D array keeps its channels. -/
def toChannels : NpArray → List (List ℝ)
  | .one d => [d]
  | .two cs => cs

/-- numpy shape of the original array. -/
def shapeOf : NpArray → List ℕ
  | .one d => [d.length]
  | .two cs => [(cs.headD []).length, cs.length]

/-- numpy shape of a channel-major 2-D array: (samples, channels). -/
def shape2 (cs : List (List ℝ)) : List ℕ := [(cs.headD []).length, cs.length]

/-- numpy total element count (ndarray.size). -/
def npSize : NpArray → ℕ
  | .one d => d.length
  | .two cs => (cs.map List.length).sum

/-- np.mean over a 1-D slice (0 for the empty slice is never relied upon). -/
noncomputable def npMean (l : List ℝ) : ℝ := l.sum / l.length

/-- np.var over a 1-D slice: mean of squared deviations (ddof = 0). -/
noncomputable def npVar (l : List ℝ) : ℝ :=
  ((l.map (fun x => (x - npMean l) ^ 2)).sum) / l.length

/-- np.std over a nonempty 1-D slice. -/
noncomputable def npStdR (l : List ℝ) : ℝ := Real.sqrt (npVar l)

/-- np.std with numpy's empty-slice behaviour: std of an empty array is NaN,
modelled as none (NaN compares unequal to every number, as in the source). -/
noncomputable def npStdOpt (l : List ℝ) : Option ℝ :=
  if l = [] then none else some (npStdR l)

/-- np.diff: first differences x[1:] - x[:-1]. -/
def npDiff (l : List ℝ) : List ℝ := List.zipWith (fun a b => b - a) l l.tail

/-- np.max of a nonempty 1-D slice (0 for the empty slice is never relied upon). -/
noncomputable def npMax : List ℝ → ℝ
  | [] => 0
  | x :: xs => xs.foldl max x

/-- np.min of a nonempty 1-D slice. -/
noncomputable def npMin : List ℝ → ℝ
  | [] => 0
  | x :: xs => xs.foldl min x

/-- np.sign. -/
noncomputable def npSign (x : ℝ) : ℝ := if 0 < x then 1 else if x < 0 then -1 else 0

/-- Zero-padded decimal rendering, Python's percent-0Nd format for
nonnegative integers. -/
def padZeros (width : ℕ) (n : ℕ) : String :=
  String.mk (List.replicate (width - (toString n).length) '0') ++ toString n

/-- The frequencias argument of aplicar_filtro: the source accepts a
tuple/list of frequencies or a bare scalar. -/
inductive Frequencias where
  | tup (l : List ℚ)
  | scalar (f : ℚ)

/-- The bandpass branch of aplicar_filtro (preprocessing, lines 42-47):
len() of a bare scalar is a TypeError; a tuple needs exactly two
frequencies with low strictly below high. -/
def aplicar_filtro_bandpass (filtered : List (List ℝ)) :
    Frequencias → Except PyErr (List (List ℝ))
  | .scalar _ => .error (.typeError "object of type float has no len()")
  | .tup [f0, f1] =>
      if f0 ≥ f1 then
        .error (.valueError "Frequência baixa deve ser menor que frequência alta")
      else .ok filtered
  | .tup _ => .error (.valueError "Para filtro bandpass, forneça duas frequências (baixa, alta)")

/-- The lowpass/highpass branch of aplicar_filtro (preprocessing, lines
48-52): element 0 of a tuple is taken without any count check (an empty
tuple is an IndexError), a bare scalar is accepted as-is. -/
def aplicar_filtro_lowhigh (filtered : List (List ℝ)) :
    Frequencias → Except PyErr (List (List ℝ))
  | .tup [] => .error (.indexError "tuple index out of range")
  | .tup (_ :: _) => .ok filtered
  | .scalar _ => .ok filtered

/-- aplicar_filtro (preprocessing, lines 26-68).  The Butterworth design and
the per-channel zero-phase filtering (scipy signal.butter and
signal.filtfilt) are external; their composition on one channel enters as
the parameter F.  The validation, reshape and per-channel mapping are
translated from the source: fs must be positive, then the tipo dispatch
runs the branch functions above, and any unknown tipo is a ValueError.
The Nyquist check only warns and the warning has no observable effect
here. -/
def aplicar_filtro (F : List ℝ → List ℝ) (sinal : NpArray) (fs : ℚ)
    (tipo : String) (frequencias : Frequencias) : Except PyErr (List (List ℝ)) :=
  if fs ≤ 0 then .error (.valueError "Frequência de amostragem deve ser positiva")
  else if tipo = "bandpass" then
    aplicar_filtro_bandpass ((toChannels sinal).map F) frequencias
  else if tipo = "lowpass" ∨ tipo = "highpass" then
    aplicar_filtro_lowhigh ((toChannels sinal).map F) frequencias
  else .error (.valueError "Tipo de filtro deve ser bandpass, lowpass ou highpass")

/-- remover_baseline_drift (preprocessing, lines 111-112): a highpass
aplicar_filtro at the cutoff frequency, passed as a one-element tuple. -/
def remover_baseline_drift (F : List ℝ → List ℝ) (sinal : NpArray) (fs : ℚ)
    (freq_corte : ℚ) : Except PyErr (List (List ℝ)) :=
  aplicar_filtro F sinal fs "highpass" (.tup [freq_corte])

/-- np.median of a nonempty 1-D slice. -/
noncomputable def npMedian (l : List ℝ) : ℝ :=
  let s := l.insertionSort (· ≤ ·)
  if l.length % 2 = 1 then s.getD (l.length / 2) 0
  else (s.getD (l.length / 2 - 1) 0 + s.getD (l.length / 2) 0) / 2

/-- Median absolute deviation, as computed by normalizar_sinal's robust
branch: median of absolute deviations from the median. -/
noncomputable def npMAD (l : List ℝ) : ℝ := npMedian (l.map (fun x => |x - npMedian l|))

/-- The loop body of normalizar_sinal for one channel (preprocessing, lines
83-106): each method guards its denominator against zero and falls back to
the unscaled numerator (minmax returns the channel unchanged).  The final
map to 0 mirrors the np.zeros_like initialisation and is unreachable for
the three validated methods. -/
noncomputable def normChannel (metodo : String) (ch : List ℝ) : List ℝ :=
  if metodo = "minmax" then
    if npMax ch - npMin ch = 0 then ch
    else ch.map (fun x => (x - npMin ch) / (npMax ch - npMin ch))
  else if metodo = "zscore" then
    if npStdR ch = 0 then ch.map (fun x => x - npMean ch)
    else ch.map (fun x => (x - npMean ch) / npStdR ch)
  else if metodo = "robust" then
    if npMAD ch = 0 then ch.map (fun x => x - npMedian ch)
    else ch.map (fun x => (x - npMedian ch) / npMAD ch)
  else ch.map (fun _ => 0)

/-- normalizar_sinal (preprocessing, lines 71-108): reshape, validate the
method name, then normalise every channel independently. -/
noncomputable def normalizar_sinal (sinal : NpArray) (metodo : String) :
    Except PyErr (List (List ℝ)) :=
  if metodo = "zscore" ∨ metodo = "minmax" ∨ metodo = "robust" then
    .ok ((toChannels sinal).map (normChannel metodo))
  else .error (.valueError "Método inválido: use zscore, minmax ou robust")

/-- Per-channel quality metrics of verificar_qualidade_sinal. -/
structure QualityMetrics where
  snr_estimado : ℝ
  amplitude_maxima : ℝ
  saturacao : ℝ
  zero_crossings : ℕ
  rms : ℝ

/-- The SNR estimate of verificar_qualidade_sinal (preprocessing, lines
159-168), branch for branch: the first-difference std is compared with 0
first (NaN for a single-sample channel, so that comparison is then false),
then the channel std, then the guarded log formula. -/
noncomputable def snrEstimado (canal : List ℝ) : ℝ :=
  if npStdOpt (npDiff canal) = some 0 then 100
  else if npStdOpt canal = some 0 then 0
  else 20 * Real.logb 10 (npStdR canal / (npStdR (npDiff canal) + 1e-10))

/-- The metrics dictionary built for one channel (preprocessing, lines
170-185). -/
noncomputable def qualityMetrics (canal : List ℝ) : QualityMetrics :=
  { snr_estimado := snrEstimado canal
    amplitude_maxima := npMax (canal.map (fun x => |x|))
    saturacao :=
      if npMax (canal.map (fun x => |x|)) = 0 then 0
      else ((canal.filter (fun x => 0.95 * npMax (canal.map (fun y => |y|)) < |x|)).length : ℝ) /
        canal.length
    zero_crossings := ((npDiff (canal.map npSign)).filter (fun d => d ≠ 0)).length
    rms := Real.sqrt (npMean (canal.map (fun x => x ^ 2))) }

/-- verificar_qualidade_sinal (preprocessing, lines 142-187): validate fs,
then report the metrics of every channel under the key canal_i. -/
noncomputable def verificar_qualidade_sinal (sinal : NpArray) (fs : ℚ) :
    Except PyErr (List (String × QualityMetrics)) :=
  if fs ≤ 0 then .error (.valueError "Frequência de amostragem deve ser positiva")
  else .ok ((toChannels sinal).enum.map
    (fun p => ("canal_" ++ toString p.1, qualityMetrics p.2)))

/-- The metadata dictionary threaded through the preprocessing pipeline. -/
structure Metadata where
  fs : ℚ
  qualidade : List (String × QualityMetrics)

/-- salvar_dados_processados (preprocessing, lines 223-304): the pure part
of the function — input validation, shard-folder computation and artifact
naming; the writes themselves are file-system effects and the function
returns the two paths it writes. -/
def salvar_dados_processados (sinal : NpArray) (ecg_id : ℤ) (output_dir : String) :
    Except PyErr (String × String) :=
  if ecg_id < 1 then .error (.valueError "ECG ID deve ser positivo")
  else if npSize sinal = 0 then .error (.valueError "Sinal não pode estar vazio")
  else
    .ok (output_dir ++ "/" ++ ("records" ++ padZeros 3 ((ecg_id - 1) / 1000).toNat) ++ "/" ++
          (padZeros 5 ecg_id.toNat ++ "_processed.npz"),
         output_dir ++ "/" ++ ("records" ++ padZeros 3 ((ecg_id - 1) / 1000).toNat) ++ "/" ++
          (padZeros 5 ecg_id.toNat ++ "_metadata.json"))

/-- The try-block of pipeline_preprocessamento (preprocessing, lines
194-217): load (external file I/O, passed as its result), optional baseline
removal, optional bandpass, optional z-score normalisation, quality
assessment.  Fh and Fb are the external per-channel filters of the highpass
and bandpass stages.  The short-signal check only warns. -/
noncomputable def pipeline_inner (Fh Fb : List ℝ → List ℝ)
    (loadResult : Except PyErr (NpArray × Metadata))
    (aplicar_filtro_flag normalizar_flag remover_deriva : Bool) :
    Except PyErr (NpArray × Metadata) := do
  let (sinal0, metadata) ← loadResult
  let s1 ← if remover_deriva
    then (remover_baseline_drift Fh sinal0 metadata.fs (1/2)).map NpArray.two
    else pure sinal0
  let s2 ← if aplicar_filtro_flag
    then (aplicar_filtro Fb s1 metadata.fs "bandpass" (.tup [1/2, 45])).map NpArray.two
    else pure s1
  let s3 ← if normalizar_flag
    then (normalizar_sinal s2 "zscore").map NpArray.two
    else pure s2
  let q ← verificar_qualidade_sinal s3 metadata.fs
  pure (s3, { metadata with qualidade := q })

/-- pipeline_preprocessamento (preprocessing, lines 190-220): the whole
try-block, with every escaping exception re-raised as a RuntimeError whose
message embeds str(e) of the original exception. -/
noncomputable def pipeline_preprocessamento (Fh Fb : List ℝ → List ℝ)
    (loadResult : Except PyErr (NpArray × Metadata))
    (aplicar_filtro_flag normalizar_flag remover_deriva : Bool) :
    Except PyErr (NpArray × Metadata) :=
  match pipeline_inner Fh Fb loadResult aplicar_filtro_flag normalizar_flag remover_deriva with
  | .ok r => .ok r
  | .error e =>
      .error (.runtimeError ("Erro no pipeline de pré-processamento: " ++ pyMessage e))

/-- The hann window weight of scipy signal.windows.hann (symmetric): for
window length M greater than 1 the weight at n is half of one minus the
cosine of 2 pi n over M - 1; a length-1 window is the single weight 1. -/
noncomputable def hannWeight (M : ℕ) (n : ℕ) : ℝ :=
  if M ≤ 1 then 1 else 1/2 - 1/2 * Real.cos (2 * Real.pi * n / ((M : ℝ) - 1))

/-- aplicar_janelamento with tipo_janela hann on one channel
(feature_extraction, lines 157-180, specialised to the hann branch that
extract_frequency_features always takes): elementwise product with the
window. -/
noncomputable def windowedHann (x : List ℝ) : List ℝ :=
  (List.range x.length).map (fun n => x.getD n 0 * hannWeight x.length n)

/-- The signal actually handed to the FFT by extract_frequency_features:
the hann-windowed signal when aplicar_janela is set, the raw signal
otherwise. -/
noncomputable def fftInput (sig : List ℝ) (aplicar_janela : Bool) : List ℝ :=
  if aplicar_janela then windowedHann sig else sig

/-- The k-th coefficient of the discrete Fourier transform computed by
scipy fft on a length-N real signal. -/
noncomputable def dftCoeff (x : List ℝ) (k : ℕ) : ℂ :=
  ∑ n in Finset.range x.length,
    (x.getD n 0 : ℂ) * Complex.exp (-(2 * Real.pi * Complex.I * k * n) / x.length)

/-- np.abs(fft_vals)[: N // 2]: magnitudes of the positive-frequency half. -/
noncomputable def magList (x : List ℝ) : List ℝ :=
  (List.range (x.length / 2)).map (fun k => Complex.abs (dftCoeff x k))

/-- fftfreq(N, 1/fs)[: N // 2]: the nonnegative frequency bins k fs / N. -/
noncomputable def freqList (N : ℕ) (fs : ℝ) : List ℝ :=
  (List.range (N / 2)).map (fun k => k * fs / N)

/-- The power spectrum mag squared. -/
noncomputable def powerList (x : List ℝ) : List ℝ := (magList x).map (fun m => m ^ 2)

/-- np.cumsum: entry i is the sum of the first i + 1 entries. -/
def cumsums (l : List ℝ) : List ℝ := (List.range l.length).map (fun i => (l.take (i + 1)).sum)

/-- np.where(cumsum_power >= 0.85 * cumsum_power[-1])[0] taken at index 0:
the least index whose cumulative power reaches 85 percent of the total,
none when no index does. -/
noncomputable def rolloffIdxOpt (p : List ℝ) : Option ℕ :=
  if h : ∃ i, i < p.length ∧ 0.85 * (cumsums p).getLastD 0 ≤ (cumsums p).getD i 0
  then some (Nat.find h) else none

/-- The index whose frequency extract_frequency_features reports as the
spectral rolloff: the found index, or the last bin when none is found
(freqs[-1] in the source). -/
noncomputable def rolloffIdxOf (p : List ℝ) : ℕ :=
  match rolloffIdxOpt p with
  | some i => i
  | none => p.length - 1

/-- np.argmax: index of the first occurrence of the maximum. -/
noncomputable def npArgmaxAux : List ℝ → ℕ → ℕ → ℝ → ℕ
  | [], _, best, _ => best
  | x :: xs, i, best, bestVal =>
      if bestVal < x then npArgmaxAux xs (i + 1) i x else npArgmaxAux xs (i + 1) best bestVal

/-- np.argmax over a list (0 on the empty list, never relied upon). -/
noncomputable def npArgmax : List ℝ → ℕ
  | [] => 0
  | x :: xs => npArgmaxAux xs 1 0 x

/-- The zero-valued feature dictionary returned by extract_frequency_features
when the total spectral power is zero (feature_extraction, lines 86-96). -/
def zeroFreqFeatures : List (String × ℝ) :=
  [("spectral_centroid", 0), ("spectral_bandwidth", 0), ("spectral_rolloff", 0),
   ("spectral_flux", 0), ("dominant_frequency", 0), ("fft_mean", 0), ("fft_std", 0),
   ("band_energy_0_5_45Hz", 0)]

/-- The feature dictionary of the nonzero-power branch of
extract_frequency_features (feature_extraction, lines 98-134), computed
from the frequency bins, the magnitude spectrum and the power spectrum. -/
noncomputable def freqFeaturesOf (freqs mag power : List ℝ) : List (String × ℝ) :=
  [("spectral_centroid", (List.zipWith (· * ·) freqs power).sum / power.sum),
   ("spectral_bandwidth", Real.sqrt ((List.zipWith
      (fun f p => (f - (List.zipWith (· * ·) freqs power).sum / power.sum) ^ 2 * p)
      freqs power).sum / power.sum)),
   ("spectral_rolloff", freqs.getD (rolloffIdxOf power) 0),
   ("spectral_flux", if 1 < power.length then ((npDiff power).map (fun d => d ^ 2)).sum else 0),
   ("dominant_frequency", freqs.getD (npArgmax power) 0),
   ("fft_mean", npMean mag),
   ("fft_std", npStdR mag),
   ("band_energy_0_5_45Hz",
     if (freqs.filter (fun f => 1/2 ≤ f ∧ f ≤ 45)) = [] then 0
     else (((freqs.zip power).filter (fun q => 1/2 ≤ q.1 ∧ q.1 ≤ 45)).map Prod.snd).sum)]

/-- extract_frequency_features (feature_extraction, lines 59-134): an empty
signal returns an empty dictionary; otherwise the (optionally hann-windowed)
signal is transformed, the positive-frequency power spectrum is computed,
and a zero total power short-circuits to the all-zero feature dictionary
instead of dividing by zero. -/
noncomputable def extract_frequency_features (sig : List ℝ) (fs : ℝ)
    (aplicar_janela : Bool) : List (String × ℝ) :=
  if sig.length = 0 then []
  else if (powerList (fftInput sig aplicar_janela)).sum = 0 then zeroFreqFeatures
  else freqFeaturesOf (freqList sig.length fs) (magList (fftInput sig aplicar_janela))
        (powerList (fftInput sig aplicar_janela))

/-- Central moment of order k, the building block of the scipy skew and
kurtosis calls. -/
noncomputable def centralMoment (l : List ℝ) (k : ℕ) : ℝ :=
  ((l.map (fun x => (x - npMean l) ^ k)).sum) / l.length

/-- Modelled from the spec: scipy.stats.skew (external call of
extract_time_features), the biased third standardised moment. -/
noncomputable def scipySkew (l : List ℝ) : ℝ := centralMoment l 3 / Real.sqrt (npVar l ^ 3)

/-- Modelled from the spec: scipy.stats.kurtosis (external call of
extract_time_features), the biased excess kurtosis. -/
noncomputable def scipyKurt (l : List ℝ) : ℝ := centralMoment l 4 / npVar l ^ 2 - 3

/-- Modelled from the spec: np.percentile with the default linear
interpolation between the order statistics, used for the iqr feature. -/
noncomputable def npPercentile (l : List ℝ) (q : ℝ) : ℝ :=
  let s := l.insertionSort (· ≤ ·)
  let pos := q / 100 * ((l.length : ℝ) - 1)
  let i := ⌊pos⌋₊
  if i + 1 < l.length then s.getD i 0 + (pos - i) * (s.getD (i + 1) 0 - s.getD i 0)
  else s.getD i 0

/-- np.signbit. -/
noncomputable def signbit (x : ℝ) : Bool := decide (x < 0)

/-- int(np.sum(np.diff(np.signbit(signal)))): np.diff on booleans is
exclusive or, so this counts sign-bit changes between consecutive samples. -/
noncomputable def signbitCrossings (l : List ℝ) : ℕ :=
  (List.zipWith (fun a b => signbit b != signbit a) l l.tail).count true

/-- Strict local maxima of the signal, the peak candidates of
scipy.signal.find_peaks. -/
noncomputable def localMaxIdx (l : List ℝ) : List ℕ :=
  (List.range l.length).filter
    (fun i => 0 < i ∧ i + 1 < l.length ∧ l.getD (i - 1) 0 < l.getD i 0 ∧
      l.getD (i + 1) 0 < l.getD i 0)

/-- Modelled from the spec: the minimum-separation filter of
scipy.signal.find_peaks with distance 50 (external call of
extract_time_features; the spec fixes the 50-sample separation, not the
tie-breaking order, so peaks are kept left to right). -/
noncomputable def filterDistance (d : ℕ) : List ℕ → List ℕ
  | [] => []
  | i :: rest => i :: filterDistance d (rest.filter (fun j => i + d ≤ j))
termination_by l => l.length
decreasing_by
  exact Nat.lt_succ_of_le (List.length_filter_le _ _)

/-- Modelled from the spec: find_peaks(signal, distance=50,
height=np.std(signal) * 0.5) — local maxima at least 50 samples apart with
height at least half the standard deviation. -/
noncomputable def numPeaks (l : List ℝ) : ℕ :=
  (filterDistance 50 ((localMaxIdx l).filter (fun i => npStdR l * (1/2) ≤ l.getD i 0))).length

/-- extract_time_features (feature_extraction, lines 35-56). -/
noncomputable def extract_time_features (ch : List ℝ) : List (String × ℝ) :=
  [("mean", npMean ch), ("std", npStdR ch), ("variance", npVar ch),
   ("min", npMin ch), ("max", npMax ch), ("range", npMax ch - npMin ch),
   ("rms", Real.sqrt (npMean (ch.map (fun x => x ^ 2)))),
   ("skewness", scipySkew ch), ("kurtosis", scipyKurt ch),
   ("iqr", npPercentile ch 75 - npPercentile ch 25),
   ("zero_crossings", (signbitCrossings ch : ℝ)), ("num_peaks", (numPeaks ch : ℝ))]

/-- Modelled from the spec: np.histogram(signal, bins, density=False)
(external call of extract_shannon_entropy) — counts over equal-width bins
between the minimum and the maximum, the last bin closed. -/
noncomputable def histogramCounts (l : List ℝ) (bins : ℕ) : List ℕ :=
  (List.range bins).map (fun k =>
    (l.filter (fun x =>
      npMin l + k * (npMax l - npMin l) / bins ≤ x ∧
      (x < npMin l + (k + 1) * (npMax l - npMin l) / bins ∨ k + 1 = bins))).length)

/-- extract_shannon_entropy (feature_extraction, lines 137-154): histogram
probabilities floored by 1e-12, then the scipy entropy in base 2 (which
renormalises its argument). -/
noncomputable def extract_shannon_entropy (l : List ℝ) (bins : ℕ) : List (String × ℝ) :=
  [("shannon_entropy",
    -(((histogramCounts l bins).map
        (fun h => (h : ℝ) / ((histogramCounts l bins).sum : ℝ) + 1e-12)).map
      (fun p => p / ((histogramCounts l bins).map
          (fun h => (h : ℝ) / ((histogramCounts l bins).sum : ℝ) + 1e-12)).sum *
        Real.logb 2 (p / ((histogramCounts l bins).map
          (fun h => (h : ℝ) / ((histogramCounts l bins).sum : ℝ) + 1e-12)).sum))).sum)]

/-- extract_features_canal (feature_extraction, lines 212-227): bounds-check
the channel index against the channel count, then concatenate the time,
frequency and entropy feature dictionaries of that channel. -/
noncomputable def extract_features_canal (signals : List (List ℝ)) (canal_idx : ℕ)
    (fs : ℝ) : Except PyErr (List (String × ℝ)) :=
  if signals.length ≤ canal_idx then
    .error (.valueError ("Canal " ++ toString canal_idx ++ " não existe."))
  else
    .ok (extract_time_features (signals.getD canal_idx []) ++
         extract_frequency_features (signals.getD canal_idx []) fs true ++
         extract_shannon_entropy (signals.getD canal_idx []) 100)

/-- The loop body of pipeline_multicanal for one channel (feature_extraction,
lines 323-336): extraction failure is caught and recorded as the empty
feature dictionary; when saving is requested a failing save (the saver is
external file I/O) also overwrites the entry with the empty dictionary. -/
noncomputable def entryFor (saver : ℕ → List (String × ℝ) → Except PyErr String)
    (salvar : Bool) (signals : List (List ℝ)) (fs : ℝ) (canal : ℕ) : List (String × ℝ) :=
  match extract_features_canal signals canal fs with
  | .error _ => []
  | .ok f =>
      if salvar then
        match saver canal f with
        | .ok _ => f
        | .error _ => []
      else f

/-- pipeline_multicanal (feature_extraction, lines 303-341): the load result
enters as a parameter (external file I/O); a non-2-D signal is rejected (the
model's signal type is inherently 2-D), the requested channels default to
all channels, and each requested channel contributes exactly one entry, via
the failure-isolating loop body. -/
noncomputable def pipeline_multicanal (saver : ℕ → List (String × ℝ) → Except PyErr String)
    (loaded : Except PyErr (List (List ℝ) × ℝ)) (canais : Option (List ℕ))
    (salvar_features : Bool) : Except PyErr (List (ℕ × List (String × ℝ))) :=
  match loaded with
  | .error e => .error e
  | .ok (signals, fs) =>
      .ok ((canais.getD (List.range signals.length)).map
        (fun canal => (canal, entryFor saver salvar_features signals fs canal)))

/-- The malformed-frequency condition that aplicar_filtro actually turns
into a ValueError for a bandpass: a tuple whose length is not two, or two
frequencies with low ≥ high (a bare scalar instead raises a TypeError at
the len() call and an empty tuple for lowpass/highpass an IndexError). -/
def badBandpassFreqs : Frequencias → Bool
  | .scalar _ => false
  | .tup [f0, f1] => decide (f0 ≥ f1)
  | .tup _ => true

lemma list_sum_const (l : List ℝ) (c : ℝ) (h : ∀ x ∈ l, x = c) :
    l.sum = l.length * c := by
  induction l with
  | nil => simp
  | cons a t ih =>
      have ha : a = c := h a (List.mem_cons_self a t)
      have ht := ih (fun x hx => h x (List.mem_cons_of_mem a hx))
      simp [ha, ht]
      ring

lemma npMean_const (l : List ℝ) (c : ℝ) (hne : l ≠ []) (h : ∀ x ∈ l, x = c) :
    npMean l = c := by
  have hlen : (l.length : ℝ) ≠ 0 := by
    simpa using List.length_pos.mpr hne |>.ne'
  rw [npMean, list_sum_const l c h, mul_comm, mul_div_assoc, div_self hlen, mul_one]

lemma npVar_const (l : List ℝ) (c : ℝ) (hne : l ≠ []) (h : ∀ x ∈ l, x = c) :
    npVar l = 0 := by
  rw [npVar]
  have : (l.map (fun x => (x - npMean l) ^ 2)).sum = 0 := by
    apply List.sum_eq_zero
    intro y hy
    rcases List.mem_map.mp hy with ⟨x, hx, hxy⟩
    rw [← hxy, h x hx, npMean_const l c hne h, sub_self]
    ring
  rw [this, zero_div]

lemma npStdR_const (l : List ℝ) (c : ℝ) (hne : l ≠ []) (h : ∀ x ∈ l, x = c) :
    npStdR l = 0 := by
  rw [npStdR, npVar_const l c hne h, Real.sqrt_zero]

lemma list_foldl_max_const (t : List ℝ) : ∀ a c : ℝ, a = c → (∀ x ∈ t, x = c) →
    t.foldl max a = c := by
  induction t with
  | nil => intro a c ha _; simpa using ha
  | cons b t2 ih =>
      intro a c ha h
      have hb : b = c := h b (List.mem_cons_self b t2)
      have : max a b = c := by rw [ha, hb, max_self]
      exact ih (max a b) c this (fun x hx => h x (List.mem_cons_of_mem b hx))

lemma list_foldl_min_const (t : List ℝ) : ∀ a c : ℝ, a = c → (∀ x ∈ t, x = c) →
    t.foldl min a = c := by
  induction t with
  | nil => intro a c ha _; simpa using ha
  | cons b t2 ih =>
      intro a c ha h
      have hb : b = c := h b (List.mem_cons_self b t2)
      have : min a b = c := by rw [ha, hb, min_self]
      exact ih (min a b) c this (fun x hx => h x (List.mem_cons_of_mem b hx))

lemma npMax_const (l : List ℝ) (c : ℝ) (hne : l ≠ []) (h : ∀ x ∈ l, x = c) :
    npMax l = c := by
  match l, hne with
  | x :: xs, _ =>
      exact list_foldl_max_const xs x c (h x (List.mem_cons_self x xs))
        (fun y hy => h y (List.mem_cons_of_mem x hy))

lemma npMin_const (l : List ℝ) (c : ℝ) (hne : l ≠ []) (h : ∀ x ∈ l, x = c) :
    npMin l = c := by
  match l, hne with
  | x :: xs, _ =>
      exact list_foldl_min_const xs x c (h x (List.mem_cons_self x xs))
        (fun y hy => h y (List.mem_cons_of_mem x hy))

lemma list_map_zero (l : List ℝ) (f : ℝ → ℝ) (h : ∀ x ∈ l, f x = 0) :
    l.map f = List.replicate l.length 0 := by
  induction l with
  | nil => simp
  | cons a t ih =>
      simp [List.replicate_succ, h a (List.mem_cons_self a t),
        ih (fun x hx => h x (List.mem_cons_of_mem a hx))]

lemma list_sum_zero_mem (l : List ℝ) (hnn : ∀ x ∈ l, 0 ≤ x) (hs : l.sum = 0) :
    ∀ x ∈ l, x = 0 := by
  induction l with
  | nil => simp
  | cons a t ih =>
      have ha : 0 ≤ a := hnn a (List.mem_cons_self a t)
      have ht : 0 ≤ t.sum := List.sum_nonneg (fun x hx => hnn x (List.mem_cons_of_mem a hx))
      have hsum : a + t.sum = 0 := by simpa using hs
      have ha0 : a = 0 := le_antisymm (by linarith) ha
      have hts : t.sum = 0 := by linarith
      intro x hx
      rcases List.mem_cons.mp hx with h1 | h2
      · rw [h1, ha0]
      · exact ih (fun y hy => hnn y (List.mem_cons_of_mem a hy)) hts x h2

lemma npVar_nonneg (l : List ℝ) : 0 ≤ npVar l := by
  rw [npVar]
  apply div_nonneg
  · exact List.sum_nonneg (fun x hx => by
      rcases List.mem_map.mp hx with ⟨y, _, hxy⟩
      rw [← hxy]; positivity)
  · positivity

lemma npStdR_eq_zero_iff (l : List ℝ) : npStdR l = 0 ↔ npVar l = 0 := by
  rw [npStdR, Real.sqrt_eq_zero (npVar_nonneg l)]

lemma const_of_npVar_eq_zero (l : List ℝ) (hne : l ≠ []) (h : npVar l = 0) :
    ∀ x ∈ l, x = npMean l := by
  have hlen : (0 : ℝ) < l.length := by
    simpa using List.length_pos.mpr hne
  have hsum : (l.map (fun x => (x - npMean l) ^ 2)).sum = 0 := by
    rw [npVar, div_eq_zero_iff] at h
    rcases h with h1 | h2
    · exact h1
    · exact absurd h2 hlen.ne'
  intro x hx
  have hz := list_sum_zero_mem (l.map (fun x => (x - npMean l) ^ 2))
    (fun y hy => by
      rcases List.mem_map.mp hy with ⟨z, _, hzy⟩
      rw [← hzy]; positivity) hsum
  have hx2 : (x - npMean l) ^ 2 = 0 :=
    hz _ (List.mem_map.mpr ⟨x, hx, rfl⟩)
  have := pow_eq_zero_iff (n := 2) (by norm_num) |>.mp hx2
  linarith [this]

lemma npDiff_cons₂ (a b : ℝ) (t : List ℝ) :
    npDiff (a :: b :: t) = (b - a) :: npDiff (b :: t) := rfl

lemma npDiff_const (l : List ℝ) (c : ℝ) (h : ∀ x ∈ l, x = c) :
    ∀ d ∈ npDiff l, d = 0 := by
  induction l with
  | nil => simp [npDiff]
  | cons a t ih =>
      match t with
      | [] => simp [npDiff]
      | b :: t2 =>
          intro d hd
          rw [npDiff_cons₂] at hd
          rcases List.mem_cons.mp hd with h1 | h2
          · rw [h1, h b (List.mem_cons_of_mem a (List.mem_cons_self b t2)),
              h a (List.mem_cons_self a (b :: t2))]
            ring
          · exact ih (fun x hx => h x (List.mem_cons_of_mem a hx)) d h2

lemma npDiff_length (l : List ℝ) : (npDiff l).length = l.length - 1 := by
  rw [npDiff, List.length_zipWith, List.length_tail]
  omega

lemma npDiff_ne_nil (l : List ℝ) (h : 2 ≤ l.length) : npDiff l ≠ [] := by
  have := npDiff_length l
  intro hc
  rw [hc] at this
  simp at this
  omega

lemma getD_eq_zero_of_all_zero (l : List ℝ) (n : ℕ) (h : ∀ x ∈ l, x = 0) :
    l.getD n 0 = 0 := by
  rw [List.getD_eq_getElem?_getD]
  cases hg : l[n]? with
  | none => rfl
  | some x => simpa using h x (List.getElem?_mem hg)

/-- C1: normalizar_sinal applies its method to every channel independently;
with method zscore a constant channel (standard deviation zero) maps to the
zero vector and with method minmax a constant channel (max equal to min) is
returned unchanged — in particular minmax on the constant signal 5,5,5,5,5
returns it unchanged; on channels with nonzero std (resp. nonzero range)
the zscore output is (x - mean)/std and the minmax output is
(x - min)/(max - min). -/
theorem normalizar_sinal_zscore_minmax_spec :
    (∀ (cs : List (List ℝ)) (metodo : String),
      metodo = "zscore" ∨ metodo = "minmax" ∨ metodo = "robust" →
      normalizar_sinal (.two cs) metodo = .ok (cs.map (normChannel metodo))) ∧
    (∀ (ch : List ℝ) (c : ℝ), ch ≠ [] → (∀ x ∈ ch, x = c) →
      normChannel "zscore" ch = List.replicate ch.length 0 ∧ normChannel "minmax" ch = ch) ∧
    (∀ ch : List ℝ, npStdR ch ≠ 0 →
      normChannel "zscore" ch = ch.map (fun x => (x - npMean ch) / npStdR ch)) ∧
    (∀ ch : List ℝ, npMax ch - npMin ch ≠ 0 →
      normChannel "minmax" ch = ch.map (fun x => (x - npMin ch) / (npMax ch - npMin ch))) ∧
    normalizar_sinal (.one [5, 5, 5, 5, 5]) "minmax" = .ok [[5, 5, 5, 5, 5]] := by
  have hconst : ∀ (ch : List ℝ) (c : ℝ), ch ≠ [] → (∀ x ∈ ch, x = c) →
      normChannel "zscore" ch = List.replicate ch.length 0 ∧ normChannel "minmax" ch = ch := by
    intro ch c hne hc
    constructor
    · rw [normChannel, if_neg (by simp), if_pos rfl, if_pos (npStdR_const ch c hne hc)]
      apply list_map_zero
      intro x hx
      rw [hc x hx, npMean_const ch c hne hc, sub_self]
    · rw [normChannel, if_pos rfl, if_pos]
      rw [npMax_const ch c hne hc, npMin_const ch c hne hc, sub_self]
  refine ⟨?_, hconst, ?_, ?_, ?_⟩
  · intro cs metodo hm
    rw [normalizar_sinal, if_pos hm]
    rfl
  · intro ch h
    rw [normChannel, if_neg (by simp), if_pos rfl, if_neg h]
  · intro ch h
    rw [normChannel, if_pos rfl, if_neg h]
  · have h5 : normChannel "minmax" [(5 : ℝ), 5, 5, 5, 5] = [5, 5, 5, 5, 5] :=
      (hconst [5, 5, 5, 5, 5] 5 (by simp) (by intro x hx; simpa using hx)).2
    rw [normalizar_sinal, if_pos (by simp)]
    simp [toChannels, h5]

/-- Witness for C1 at a concrete constant channel: zscore maps 4,4 to the
zero vector and minmax leaves it unchanged. -/
theorem normalizar_sinal_zscore_minmax_spec_witness :
    normChannel "zscore" [(4 : ℝ), 4] = List.replicate 2 0 ∧
    normChannel "minmax" [(4 : ℝ), 4] = [4, 4] := by
  have h := normalizar_sinal_zscore_minmax_spec.2.1 [(4 : ℝ), 4] 4 (by simp)
    (by intro x hx; simpa using (by simpa using hx : x = 4 ∨ x = 4).elim id id)
  simpa using h

lemma npStdOpt_eq_some (l : List ℝ) (h : l ≠ []) : npStdOpt l = some (npStdR l) := by
  rw [npStdOpt, if_neg h]

lemma npStdR_single (x : ℝ) : npStdR [x] = 0 := npStdR_const [x] x (by simp) (by simp)

lemma length_ge_two_of_npDiff_ne_nil (l : List ℝ) (h : npDiff l ≠ []) : 2 ≤ l.length := by
  by_contra hc
  push_neg at hc
  apply h
  have hlen := npDiff_length l
  have : (npDiff l).length = 0 := by omega
  exact List.length_eq_zero.mp this

/-- C2 counterexample: the constant channel 3,3 has standard deviation zero
but verificar_qualidade_sinal reports snr_estimado 100.0 for it, not 0.0 —
the std(diff) == 0 branch is tested first and captures every constant
channel with at least two samples. -/
theorem snr_constant_channel_counterexample :
    verificar_qualidade_sinal (.two [[(3 : ℝ), 3]]) 100 =
      .ok [("canal_0", qualityMetrics [(3 : ℝ), 3])] ∧
    npStdR [(3 : ℝ), 3] = 0 ∧
    (qualityMetrics [(3 : ℝ), 3]).snr_estimado = 100 ∧ (100 : ℝ) ≠ 0 := by
  refine ⟨?_, ?_, ?_, by norm_num⟩
  · rw [verificar_qualidade_sinal, if_neg (by norm_num)]
    rfl
  · exact npStdR_const [3, 3] 3 (by simp) (by intro x hx; simpa using (by simpa using hx : x = 3 ∨ x = 3).elim id id)
  · show snrEstimado [(3 : ℝ), 3] = 100
    have hdiff : npDiff [(3 : ℝ), 3] = [0] := by
      show npDiff [(3 : ℝ), 3] = [0]
      simp [npDiff]
    rw [snrEstimado, if_pos]
    rw [hdiff, npStdOpt_eq_some [0] (by simp), npStdR_single 0]

/-- C2 (amended): verificar_qualidade_sinal reports the per-channel metrics
dictionary; snr_estimado is 100.0 whenever the first-difference std exists
and is zero — which includes every constant channel of two or more samples,
the std(diff) branch being tested before the channel-std branch — while the
0.0 sentinel for a zero channel std is reached only when the
first-difference std is unavailable (a single-sample channel, whose diff is
empty and has NaN std); otherwise snr_estimado is the guarded log formula
20 log10(std/(std(diff) + 1e-10)). -/
theorem verificar_qualidade_snr_spec :
    (∀ (cs : List (List ℝ)) (fs : ℚ), 0 < fs →
      verificar_qualidade_sinal (.two cs) fs =
        .ok (cs.enum.map (fun p => ("canal_" ++ toString p.1, qualityMetrics p.2)))) ∧
    (∀ canal : List ℝ, npDiff canal ≠ [] → npStdR (npDiff canal) = 0 →
      snrEstimado canal = 100) ∧
    (∀ (canal : List ℝ) (c : ℝ), 2 ≤ canal.length → (∀ x ∈ canal, x = c) →
      snrEstimado canal = 100) ∧
    (∀ x : ℝ, snrEstimado [x] = 0) ∧
    (∀ canal : List ℝ, npDiff canal ≠ [] → npStdR (npDiff canal) ≠ 0 →
      snrEstimado canal = 20 * Real.logb 10 (npStdR canal / (npStdR (npDiff canal) + 1e-10))) := by
  have hbranch1 : ∀ canal : List ℝ, npDiff canal ≠ [] → npStdR (npDiff canal) = 0 →
      snrEstimado canal = 100 := by
    intro canal hne hz
    rw [snrEstimado, if_pos]
    rw [npStdOpt_eq_some _ hne, hz]
  refine ⟨?_, hbranch1, ?_, ?_, ?_⟩
  · intro cs fs hfs
    rw [verificar_qualidade_sinal, if_neg (not_le.mpr hfs)]
    rfl
  · intro canal c hlen hc
    have hne : npDiff canal ≠ [] := npDiff_ne_nil canal hlen
    have hz : npStdR (npDiff canal) = 0 :=
      npStdR_const (npDiff canal) 0 hne (npDiff_const canal c hc)
    exact hbranch1 canal hne hz
  · intro x
    have hdiff : npDiff [x] = [] := rfl
    rw [snrEstimado, hdiff, if_neg (by rw [npStdOpt, if_pos rfl]; simp),
      if_pos (by rw [npStdOpt_eq_some [x] (by simp), npStdR_single x])]
  · intro canal hne hnz
    have hlen : 2 ≤ canal.length := length_ge_two_of_npDiff_ne_nil canal hne
    have hcne : canal ≠ [] := by
      intro hc
      rw [hc] at hlen
      simp at hlen
    have hstdc : npStdR canal ≠ 0 := by
      intro hz
      apply hnz
      have hvar : npVar canal = 0 := (npStdR_eq_zero_iff canal).mp hz
      have hconst := const_of_npVar_eq_zero canal hcne hvar
      exact npStdR_const (npDiff canal) 0 hne (npDiff_const canal (npMean canal) hconst)
    rw [snrEstimado, if_neg, if_neg]
    · rw [npStdOpt_eq_some canal hcne]
      intro hs
      exact hstdc (Option.some_injective ℝ hs)
    · rw [npStdOpt_eq_some _ hne]
      intro hs
      exact hnz (Option.some_injective ℝ hs)

/-- Witness for C2 at concrete channels: the two-sample constant channel
7,7 gets snr 100 and the single-sample channel 9 gets snr 0. -/
theorem verificar_qualidade_snr_spec_witness :
    snrEstimado [(7 : ℝ), 7] = 100 ∧ snrEstimado [(9 : ℝ)] = 0 :=
  ⟨verificar_qualidade_snr_spec.2.2.1 [(7 : ℝ), 7] 7 (by simp)
      (by intro x hx; simpa using (by simpa using hx : x = 7 ∨ x = 7).elim id id),
   verificar_qualidade_snr_spec.2.2.2.1 9⟩

/-- C3 counterexample: a lowpass with a two-frequency tuple is accepted
without any error (the source simply uses frequencias[0] for
lowpass/highpass and never checks the count), although the claim requires a
ValidationError whenever lowpass is not given exactly one frequency. -/
theorem aplicar_filtro_lowpass_two_freqs_counterexample :
    aplicar_filtro (fun l => l) (.one (List.replicate 20 (1 : ℝ))) 100 "lowpass"
      (.tup [1/2, 45]) = .ok [List.replicate 20 (1 : ℝ)] := by
  simp only [aplicar_filtro]
  rw [if_neg (by norm_num), if_neg (by simp), if_pos (by simp)]
  rfl

/-- C3 (amended): aplicar_filtro raises ValueError exactly when fs ≤ 0, or
the kind is bandpass with a malformed frequency tuple (length other than
two, or low ≥ high), or the kind is unknown; lowpass/highpass perform no
frequency-count validation at all — extra frequencies are silently ignored
(the first is used) and an empty tuple raises IndexError, not ValueError. -/
theorem aplicar_filtro_validation_spec :
    ∀ (F : List ℝ → List ℝ) (sinal : NpArray) (fs : ℚ) (tipo : String)
      (fr : Frequencias),
      (∃ m, aplicar_filtro F sinal fs tipo fr = .error (.valueError m)) ↔
        (fs ≤ 0 ∨ (tipo = "bandpass" ∧ badBandpassFreqs fr = true) ∨
         (tipo ≠ "bandpass" ∧ tipo ≠ "lowpass" ∧ tipo ≠ "highpass")) := by
  intro F sinal fs tipo fr
  simp only [aplicar_filtro]
  by_cases h0 : fs ≤ 0
  · rw [if_pos h0]
    exact ⟨fun _ => Or.inl h0, fun _ => ⟨_, rfl⟩⟩
  · rw [if_neg h0]
    by_cases hb : tipo = "bandpass"
    · rw [if_pos hb]
      rcases fr with l | f
      · rcases l with _ | ⟨f0, _ | ⟨f1, _ | ⟨f2, t⟩⟩⟩
        · simp [aplicar_filtro_bandpass, badBandpassFreqs, hb, h0]
        · simp [aplicar_filtro_bandpass, badBandpassFreqs, hb, h0]
        · by_cases hf : f0 ≥ f1
          · simp [aplicar_filtro_bandpass, badBandpassFreqs, hb, h0, hf]
          · simp [aplicar_filtro_bandpass, badBandpassFreqs, hb, h0, hf]
        · simp [aplicar_filtro_bandpass, badBandpassFreqs, hb, h0]
      · simp [aplicar_filtro_bandpass, badBandpassFreqs, hb, h0]
    · rw [if_neg hb]
      by_cases hl : tipo = "lowpass" ∨ tipo = "highpass"
      · rw [if_pos hl]
        have h3 : ¬(tipo ≠ "bandpass" ∧ tipo ≠ "lowpass" ∧ tipo ≠ "highpass") := by
          rcases hl with h | h
          · exact fun hc => hc.2.1 h
          · exact fun hc => hc.2.2 h
        rcases fr with l | f
        · rcases l with _ | ⟨a, t⟩
          · simp only [aplicar_filtro_lowhigh]
            simp [hb, h0, h3]
            exact fun h => hl.resolve_left h
          · simp only [aplicar_filtro_lowhigh]
            simp [hb, h0, h3]
            exact fun h => hl.resolve_left h
        · simp only [aplicar_filtro_lowhigh]
          simp [hb, h0, h3]
          exact fun h => hl.resolve_left h
      · rw [if_neg hl]
        push_neg at hl
        constructor
        · intro _
          exact Or.inr (Or.inr ⟨hb, hl.1, hl.2⟩)
        · intro _
          exact ⟨_, rfl⟩

lemma aplicar_filtro_bandpass_ok (filtered saida : List (List ℝ)) (fr : Frequencias)
    (h : aplicar_filtro_bandpass filtered fr = .ok saida) : saida = filtered := by
  rcases fr with l | f
  · rcases l with _ | ⟨f0, _ | ⟨f1, _ | ⟨f2, t⟩⟩⟩
    · simp [aplicar_filtro_bandpass] at h
    · simp [aplicar_filtro_bandpass] at h
    · simp only [aplicar_filtro_bandpass] at h
      by_cases hf : f0 ≥ f1
      · rw [if_pos hf] at h
        simp at h
      · rw [if_neg hf] at h
        simpa using h.symm
    · simp [aplicar_filtro_bandpass] at h
  · simp [aplicar_filtro_bandpass] at h

lemma aplicar_filtro_lowhigh_ok (filtered saida : List (List ℝ)) (fr : Frequencias)
    (h : aplicar_filtro_lowhigh filtered fr = .ok saida) : saida = filtered := by
  rcases fr with l | f
  · rcases l with _ | ⟨a, t⟩
    · simp [aplicar_filtro_lowhigh] at h
    · simpa [aplicar_filtro_lowhigh] using h.symm
  · simpa [aplicar_filtro_lowhigh] using h.symm

lemma aplicar_filtro_ok (F : List ℝ → List ℝ) (sinal : NpArray) (fs : ℚ)
    (tipo : String) (fr : Frequencias) (saida : List (List ℝ))
    (h : aplicar_filtro F sinal fs tipo fr = .ok saida) :
    saida = (toChannels sinal).map F := by
  simp only [aplicar_filtro] at h
  by_cases h0 : fs ≤ 0
  · rw [if_pos h0] at h
    exact absurd h (by simp)
  · rw [if_neg h0] at h
    by_cases hb : tipo = "bandpass"
    · rw [if_pos hb] at h
      exact aplicar_filtro_bandpass_ok _ _ _ h
    · rw [if_neg hb] at h
      by_cases hl : tipo = "lowpass" ∨ tipo = "highpass"
      · rw [if_pos hl] at h
        exact aplicar_filtro_lowhigh_ok _ _ _ h
      · rw [if_neg hl] at h
        exact absurd h (by simp)

lemma shape2_map (F : List ℝ → List ℝ) (hF : ∀ l, (F l).length = l.length)
    (cs : List (List ℝ)) : shape2 (cs.map F) = shape2 cs := by
  cases cs with
  | nil => rfl
  | cons c t => simp [shape2, hF]

/-- C4 counterexample: a 1-D input of length 30 is accepted by aplicar_filtro
but the returned array is 2-D of shape (30, 1) — the source reshapes to
(-1, 1) and returns np.zeros_like of the reshaped array — so the output
shape is not the input shape (30,). -/
theorem aplicar_filtro_one_dim_shape_counterexample :
    aplicar_filtro (fun l => l) (.one (List.replicate 30 (1 : ℝ))) 100 "bandpass"
      (.tup [1/2, 45]) = .ok [List.replicate 30 (1 : ℝ)] ∧
    shape2 [List.replicate 30 (1 : ℝ)] ≠ shapeOf (.one (List.replicate 30 (1 : ℝ))) := by
  constructor
  · simp only [aplicar_filtro]
    rw [if_neg (by norm_num), if_pos (by trivial)]
    simp only [aplicar_filtro_bandpass]
    rw [if_neg (by norm_num)]
    rfl
  · simp [shape2, shapeOf]

/-- C4 (amended): every signal accepted by aplicar_filtro comes back as the
2-D channel-major array obtained by filtering each channel of the reshaped
input, so for a filter that preserves channel length the output shape
equals the shape of the reshaped input: a 2-D input keeps its shape and
channel alignment exactly, while a 1-D input of length n is treated as a
single channel and yields shape (n, 1), not (n,). -/
theorem aplicar_filtro_shape_spec :
    ∀ (F : List ℝ → List ℝ), (∀ l, (F l).length = l.length) →
    ∀ (sinal : NpArray) (fs : ℚ) (tipo : String) (fr : Frequencias)
      (saida : List (List ℝ)),
      aplicar_filtro F sinal fs tipo fr = .ok saida →
      saida = (toChannels sinal).map F ∧ shape2 saida = shape2 (toChannels sinal) := by
  intro F hF sinal fs tipo fr saida h
  have hout := aplicar_filtro_ok F sinal fs tipo fr saida h
  exact ⟨hout, by rw [hout]; exact shape2_map F hF (toChannels sinal)⟩

/-- Witness for C4 at a concrete accepted 2-D input with the identity as the
external per-channel filter. -/
theorem aplicar_filtro_shape_spec_witness :
    ([[(1 : ℝ), 2], [(3 : ℝ), 4]] : List (List ℝ)) =
      (toChannels (.two [[(1 : ℝ), 2], [(3 : ℝ), 4]])).map (fun l => l) ∧
    shape2 [[(1 : ℝ), 2], [(3 : ℝ), 4]] =
      shape2 (toChannels (.two [[(1 : ℝ), 2], [(3 : ℝ), 4]])) :=
  aplicar_filtro_shape_spec (fun l => l) (fun _ => rfl)
    (.two [[(1 : ℝ), 2], [(3 : ℝ), 4]]) 100 "lowpass" (.tup [1/2])
    [[(1 : ℝ), 2], [(3 : ℝ), 4]]
    (by simp only [aplicar_filtro]
        rw [if_neg (by norm_num), if_neg (by simp), if_pos (by simp)]
        rfl)

/-- C7: salvar_dados_processados raises ValueError exactly when ecg_id < 1
or the signal is empty, and otherwise returns the two artifact paths inside
the shard folder records NNN with NNN the 3-digit zero-padded
(ecg_id - 1) / 1000 and file names zero-padding ecg_id to 5 digits. -/
theorem salvar_dados_processados_spec :
    ∀ (sinal : NpArray) (ecg_id : ℤ) (output_dir : String),
      ((∃ m, salvar_dados_processados sinal ecg_id output_dir = .error (.valueError m)) ↔
        (ecg_id < 1 ∨ npSize sinal = 0)) ∧
      (1 ≤ ecg_id → npSize sinal ≠ 0 →
        salvar_dados_processados sinal ecg_id output_dir =
          .ok (output_dir ++ "/" ++ ("records" ++ padZeros 3 ((ecg_id - 1) / 1000).toNat) ++
                "/" ++ (padZeros 5 ecg_id.toNat ++ "_processed.npz"),
               output_dir ++ "/" ++ ("records" ++ padZeros 3 ((ecg_id - 1) / 1000).toNat) ++
                "/" ++ (padZeros 5 ecg_id.toNat ++ "_metadata.json"))) := by
  intro sinal ecg_id output_dir
  constructor
  · constructor
    · rintro ⟨m, hm⟩
      by_cases h1 : ecg_id < 1
      · exact Or.inl h1
      · by_cases h2 : npSize sinal = 0
        · exact Or.inr h2
        · simp only [salvar_dados_processados] at hm
          rw [if_neg h1, if_neg h2] at hm
          exact absurd hm (by simp)
    · rintro (h1 | h2)
      · exact ⟨_, by simp only [salvar_dados_processados]; rw [if_pos h1]⟩
      · by_cases h1 : ecg_id < 1
        · exact ⟨_, by simp only [salvar_dados_processados]; rw [if_pos h1]⟩
        · exact ⟨_, by simp only [salvar_dados_processados]; rw [if_neg h1, if_pos h2]⟩
  · intro h1 h2
    simp only [salvar_dados_processados]
    rw [if_neg (not_lt.mpr h1), if_neg h2]

/-- Witness for C7 at the example input of the claim: ecg_id 2500 lands in
shard folder records002 with file names 02500_processed.npz and
02500_metadata.json. -/
theorem salvar_dados_processados_spec_witness :
    salvar_dados_processados (.two [[(1 : ℝ)]]) 2500 "out" =
      .ok ("out/records002/02500_processed.npz", "out/records002/02500_metadata.json") := by
  have h := (salvar_dados_processados_spec (.two [[(1 : ℝ)]]) 2500 "out").2
    (by norm_num) (by simp [npSize])
  rw [h]
  rfl

/-- C8: whenever the try-block chain of pipeline_preprocessamento (load,
baseline removal, bandpass, normalisation, quality assessment) fails with
an exception, the pipeline raises the single wrapper error type
(RuntimeError, the source's PipelineError) whose message carries the
original cause's message, and it never returns a halfway result. -/
theorem pipeline_preprocessamento_wraps_errors :
    ∀ (Fh Fb : List ℝ → List ℝ) (loadResult : Except PyErr (NpArray × Metadata))
      (f1 f2 f3 : Bool) (e : PyErr),
      pipeline_inner Fh Fb loadResult f1 f2 f3 = .error e →
      pipeline_preprocessamento Fh Fb loadResult f1 f2 f3 =
        .error (.runtimeError ("Erro no pipeline de pré-processamento: " ++ pyMessage e)) ∧
      ∀ r, pipeline_preprocessamento Fh Fb loadResult f1 f2 f3 ≠ .ok r := by
  intro Fh Fb loadResult f1 f2 f3 e h
  have hmain : pipeline_preprocessamento Fh Fb loadResult f1 f2 f3 =
      .error (.runtimeError ("Erro no pipeline de pré-processamento: " ++ pyMessage e)) := by
    simp only [pipeline_preprocessamento]
    rw [h]
  refine ⟨hmain, ?_⟩
  intro r
  rw [hmain]
  simp

/-- Witness for C8: a failing load stage is wrapped into the RuntimeError
with the original message embedded. -/
theorem pipeline_preprocessamento_wraps_errors_witness :
    pipeline_preprocessamento (fun l => l) (fun l => l)
        (.error (.valueError "arquivo inválido")) true true true =
      .error (.runtimeError "Erro no pipeline de pré-processamento: arquivo inválido") := by
  have h := (pipeline_preprocessamento_wraps_errors (fun l => l) (fun l => l)
    (.error (.valueError "arquivo inválido")) true true true
    (.valueError "arquivo inválido") rfl).1
  rw [h]
  rfl

/-- C9: pipeline_multicanal produces exactly one result entry per requested
channel (defaulting to all channels), each carrying that channel's loop
result; whenever feature extraction for a channel raises, that channel's
entry is the empty feature dictionary, and the other channels' entries are
unaffected — a failure on one channel never aborts or removes the rest. -/
theorem pipeline_multicanal_isolation_spec :
    ∀ (saver : ℕ → List (String × ℝ) → Except PyErr String)
      (signals : List (List ℝ)) (fs : ℝ) (canaisOpt : Option (List ℕ))
      (salvar : Bool) (saida : List (ℕ × List (String × ℝ))),
      pipeline_multicanal saver (.ok (signals, fs)) canaisOpt salvar = .ok saida →
      saida.map Prod.fst = canaisOpt.getD (List.range signals.length) ∧
      (∀ canal ∈ canaisOpt.getD (List.range signals.length),
        (canal, entryFor saver salvar signals fs canal) ∈ saida) ∧
      (∀ canal ∈ canaisOpt.getD (List.range signals.length), ∀ e,
        extract_features_canal signals canal fs = .error e → (canal, []) ∈ saida) := by
  intro saver signals fs canaisOpt salvar saida h
  have hs : saida = (canaisOpt.getD (List.range signals.length)).map
      (fun canal => (canal, entryFor saver salvar signals fs canal)) := by
    simp only [pipeline_multicanal] at h
    exact (Except.ok.inj h).symm
  refine ⟨?_, ?_, ?_⟩
  · rw [hs, List.map_map]
    simp [Function.comp_def]
  · intro canal hc
    rw [hs]
    exact List.mem_map.mpr ⟨canal, hc, rfl⟩
  · intro canal hc e he
    have hent : entryFor saver salvar signals fs canal = [] := by
      simp only [entryFor]
      rw [he]
    rw [hs]
    exact List.mem_map.mpr ⟨canal, hc, by rw [hent]⟩

/-- Witness for C9: one requested channel (index 5) that does not exist in
a one-channel signal yields exactly one entry, the empty feature set. -/
theorem pipeline_multicanal_isolation_spec_witness :
    ([((5 : ℕ), ([] : List (String × ℝ)))].map Prod.fst = [5]) ∧
    ((5 : ℕ), ([] : List (String × ℝ))) ∈ [((5 : ℕ), ([] : List (String × ℝ)))] := by
  have h := pipeline_multicanal_isolation_spec (fun _ _ => .ok "") [[(1 : ℝ), 0]] 100
    (some [5]) false [(5, [])] rfl
  exact ⟨h.1, h.2.2 5 (by simp) _ rfl⟩

lemma windowedHann_all_zero (l : List ℝ) (h : ∀ x ∈ l, x = 0) :
    ∀ y ∈ windowedHann l, y = 0 := by
  intro y hy
  rcases List.mem_map.mp hy with ⟨n, _, rfl⟩
  rw [getD_eq_zero_of_all_zero l n h, zero_mul]

lemma fftInput_all_zero (sig : List ℝ) (w : Bool) (h : ∀ x ∈ sig, x = 0) :
    ∀ y ∈ fftInput sig w, y = 0 := by
  cases w with
  | false => simpa [fftInput] using h
  | true => simpa [fftInput] using windowedHann_all_zero sig h

lemma dftCoeff_all_zero (x : List ℝ) (k : ℕ) (h : ∀ v ∈ x, v = 0) :
    dftCoeff x k = 0 := by
  rw [dftCoeff]
  apply Finset.sum_eq_zero
  intro n _
  rw [getD_eq_zero_of_all_zero x n h]
  simp

lemma powerList_sum_all_zero (x : List ℝ) (h : ∀ v ∈ x, v = 0) :
    (powerList x).sum = 0 := by
  apply List.sum_eq_zero
  intro q hq
  rcases List.mem_map.mp hq with ⟨m, hm, rfl⟩
  rcases List.mem_map.mp hm with ⟨k, _, rfl⟩
  rw [dftCoeff_all_zero x k h]
  simp

lemma powerList_nonneg (x : List ℝ) : ∀ q ∈ powerList x, 0 ≤ q := by
  intro q hq
  rcases List.mem_map.mp hq with ⟨m, _, rfl⟩
  positivity

/-- C5: when the total spectral energy of the (windowed) signal is zero —
in particular for the all-zeros signal — extract_frequency_features on a
nonempty signal returns the dictionary in which every one of the eight
features is 0.0; the division guard makes the zero-energy branch return
before any division happens. -/
theorem extract_frequency_features_zero_energy_spec :
    (∀ p ∈ zeroFreqFeatures, p.2 = 0) ∧
    (∀ (sig : List ℝ) (fs : ℝ) (w : Bool), sig ≠ [] →
      (powerList (fftInput sig w)).sum = 0 →
      extract_frequency_features sig fs w = zeroFreqFeatures) ∧
    (∀ (sig : List ℝ) (fs : ℝ) (w : Bool), sig ≠ [] → (∀ x ∈ sig, x = 0) →
      extract_frequency_features sig fs w = zeroFreqFeatures) := by
  have hzero : ∀ (sig : List ℝ) (fs : ℝ) (w : Bool), sig ≠ [] →
      (powerList (fftInput sig w)).sum = 0 →
      extract_frequency_features sig fs w = zeroFreqFeatures := by
    intro sig fs w hne hz
    simp only [extract_frequency_features]
    rw [if_neg (by simpa [List.length_eq_zero] using hne), if_pos hz]
  refine ⟨?_, hzero, ?_⟩
  · intro p hp
    fin_cases hp <;> rfl
  · intro sig fs w hne hz
    exact hzero sig fs w hne (powerList_sum_all_zero _ (fftInput_all_zero sig w hz))

/-- Witness for C5 at the all-zeros signal of length 4 with the default
windowing. -/
theorem extract_frequency_features_zero_energy_spec_witness :
    extract_frequency_features [0, 0, 0, 0] 100 true = zeroFreqFeatures :=
  extract_frequency_features_zero_energy_spec.2.2 [0, 0, 0, 0] 100 true (by simp)
    (by intro x hx; simpa using hx)

/-- C10: extract_frequency_features on the empty signal returns the empty
dictionary (no keys at all), while on every nonempty signal it returns
exactly the fixed eight-key set, in both the zero-energy and the generic
branch. -/
theorem extract_frequency_features_keys_spec :
    (∀ (fs : ℝ) (w : Bool), extract_frequency_features [] fs w = []) ∧
    (∀ (sig : List ℝ) (fs : ℝ) (w : Bool), sig ≠ [] →
      (extract_frequency_features sig fs w).map Prod.fst =
        ["spectral_centroid", "spectral_bandwidth", "spectral_rolloff", "spectral_flux",
         "dominant_frequency", "fft_mean", "fft_std", "band_energy_0_5_45Hz"]) := by
  constructor
  · intro fs w
    simp [extract_frequency_features]
  · intro sig fs w hne
    simp only [extract_frequency_features]
    rw [if_neg (by simpa [List.length_eq_zero] using hne)]
    by_cases hz : (powerList (fftInput sig w)).sum = 0
    · rw [if_pos hz]
      rfl
    · rw [if_neg hz]
      rfl

/-- Witness for C10 at a concrete one-sample signal. -/
theorem extract_frequency_features_keys_spec_witness :
    (extract_frequency_features [(0 : ℝ)] 100 true).map Prod.fst =
      ["spectral_centroid", "spectral_bandwidth", "spectral_rolloff", "spectral_flux",
       "dominant_frequency", "fft_mean", "fft_std", "band_energy_0_5_45Hz"] :=
  extract_frequency_features_keys_spec.2 [(0 : ℝ)] 100 true (by simp)

lemma getD_range_map (f : ℕ → ℝ) (n i : ℕ) (d : ℝ) (h : i < n) :
    ((List.range n).map f).getD i d = f i := by
  rw [List.getD_eq_getElem?_getD, List.getElem?_map, List.getElem?_range h]
  rfl

lemma cumsums_length (l : List ℝ) : (cumsums l).length = l.length := by
  simp [cumsums]

lemma cumsums_getD (l : List ℝ) (i : ℕ) (h : i < l.length) :
    (cumsums l).getD i 0 = (l.take (i + 1)).sum :=
  getD_range_map _ _ _ _ h

lemma cumsums_getLastD (l : List ℝ) (hne : l ≠ []) :
    (cumsums l).getLastD 0 = l.sum := by
  have hlen : 0 < l.length := List.length_pos.mpr hne
  have hidx : (cumsums l).length - 1 < (cumsums l).length := by
    rw [cumsums_length]
    omega
  rw [List.getLastD_eq_getLast?, List.getLast?_eq_getElem?,
    List.getElem?_eq_getElem hidx, Option.getD_some]
  have hgd : (cumsums l)[(cumsums l).length - 1] =
      (cumsums l).getD ((cumsums l).length - 1) 0 := by
    rw [List.getD_eq_getElem?_getD, List.getElem?_eq_getElem hidx]
    rfl
  rw [hgd, cumsums_length, cumsums_getD l (l.length - 1) (by omega),
    Nat.sub_add_cancel hlen, List.take_length]

lemma rolloff_spec (p : List ℝ) (hnn : ∀ q ∈ p, 0 ≤ q) (hs : p.sum ≠ 0) :
    rolloffIdxOpt p = some (rolloffIdxOf p) ∧
    rolloffIdxOf p < p.length ∧
    0.85 * p.sum ≤ (cumsums p).getD (rolloffIdxOf p) 0 ∧
    (∀ j, j + 1 = rolloffIdxOf p → (cumsums p).getD j 0 < 0.85 * p.sum) := by
  have hpos : 0 < p.sum := lt_of_le_of_ne (List.sum_nonneg hnn) (Ne.symm hs)
  have hne : p ≠ [] := by
    intro hc
    rw [hc] at hs
    simp at hs
  have hlen : 0 < p.length := List.length_pos.mpr hne
  have hlast : (cumsums p).getLastD 0 = p.sum := cumsums_getLastD p hne
  have hwit : ∃ i, i < p.length ∧
      0.85 * (cumsums p).getLastD 0 ≤ (cumsums p).getD i 0 := by
    refine ⟨p.length - 1, by omega, ?_⟩
    rw [hlast, cumsums_getD p (p.length - 1) (by omega),
      Nat.sub_add_cancel hlen, List.take_length]
    nlinarith
  have hopt : rolloffIdxOpt p = some (Nat.find hwit) := by
    rw [rolloffIdxOpt, dif_pos hwit]
  have hof : rolloffIdxOf p = Nat.find hwit := by
    simp only [rolloffIdxOf]
    rw [hopt]
  have hspec := Nat.find_spec hwit
  refine ⟨by rw [hopt, hof], by rw [hof]; exact hspec.1, ?_, ?_⟩
  · rw [hof, ← hlast]
    exact hspec.2
  · intro j hj
    rw [hof] at hj
    have hjlt : j < Nat.find hwit := by omega
    have hmin := Nat.find_min hwit hjlt
    push_neg at hmin
    have hjlen : j < p.length := by
      have := hspec.1
      omega
    have hlt := hmin hjlen
    rwa [hlast] at hlt

/-- C6: on every input with nonzero total spectral energy the
spectral_rolloff reported by extract_frequency_features is the frequency of
the first bin whose cumulative spectral energy reaches 85 percent of the
total: the cumulative energy fraction at the rolloff bin is at least 0.85
and at the immediately preceding bin (when one exists) it is below 0.85. -/
theorem spectral_rolloff_boundary_spec :
    ∀ (sig : List ℝ) (fs : ℝ) (w : Bool), sig ≠ [] →
      (powerList (fftInput sig w)).sum ≠ 0 →
      (extract_frequency_features sig fs w).lookup "spectral_rolloff" =
        some ((freqList sig.length fs).getD
          (rolloffIdxOf (powerList (fftInput sig w))) 0) ∧
      0.85 ≤ (cumsums (powerList (fftInput sig w))).getD
          (rolloffIdxOf (powerList (fftInput sig w))) 0 /
          (powerList (fftInput sig w)).sum ∧
      (∀ j, j + 1 = rolloffIdxOf (powerList (fftInput sig w)) →
        (cumsums (powerList (fftInput sig w))).getD j 0 /
          (powerList (fftInput sig w)).sum < 0.85) := by
  intro sig fs w hne hz
  have hnn := powerList_nonneg (fftInput sig w)
  obtain ⟨hopt, hlt, hge, hprev⟩ := rolloff_spec _ hnn hz
  have hpos : 0 < (powerList (fftInput sig w)).sum :=
    lt_of_le_of_ne (List.sum_nonneg hnn) (Ne.symm hz)
  refine ⟨?_, ?_, ?_⟩
  · simp only [extract_frequency_features]
    rw [if_neg (by simpa [List.length_eq_zero] using hne), if_neg hz]
    rfl
  · exact (le_div_iff₀ hpos).mpr hge
  · intro j hj
    rw [div_lt_iff₀ hpos]
    exact hprev j hj

/-- Witness for C6: the signal 1,0 (no windowing) has total spectral power
1, and the claim's boundary conditions hold at its rolloff index. -/
theorem spectral_rolloff_boundary_spec_witness :
    0.85 ≤ (cumsums (powerList (fftInput [(1 : ℝ), 0] false))).getD
        (rolloffIdxOf (powerList (fftInput [(1 : ℝ), 0] false))) 0 /
        (powerList (fftInput [(1 : ℝ), 0] false)).sum := by
  have hd : dftCoeff [(1 : ℝ), 0] 0 = 1 := by
    norm_num [dftCoeff, Finset.sum_range_succ, List.getD_cons_zero, List.getD_cons_succ,
      Complex.exp_zero]
  have hz : (powerList (fftInput [(1 : ℝ), 0] false)).sum ≠ 0 := by
    have hfi : fftInput [(1 : ℝ), 0] false = [(1 : ℝ), 0] := rfl
    rw [hfi, powerList, magList]
    norm_num [List.range_succ, hd]
  exact (spectral_rolloff_boundary_spec [(1 : ℝ), 0] 100 false (by simp) hz).2.1
